import Mathlib

/-!
Shallow embedding of the gomongolia-guide-admin-web client logic.

The repository is a Next.js admin dashboard. The logic verified here:
- lib/httpHelper.ts: the generic httpGet envelope client;
- app/page.tsx (dashboard): the users search filter, the reward sort, and
  the user statistics block;
- the trips page component: the trips search filter, the users-from-trips
  deduplication, and the trip/user statistics block.

Modelling conventions:
- JS strings are Lean String values; fields the code reads through optional
  chaining are Option String (none = undefined), and optional chaining in a
  boolean position is optTest (undefined is falsy).
- Date values are epoch milliseconds (Int). The dashboard computes a week-ago
  bound with setDate(getDate() - 7); in a fixed-offset calendar that is now
  minus 7 * 86400000 ms, which is how it is modelled here.
- JS number division in the statistics is modelled with Rat (exact), JS
  integer arithmetic with Int/Nat.
- Array.prototype.sort with a consistent comparator is modelled by a stable
  merge sort ordered by comparator value at most 0.
- JS objects used as histograms are insertion-ordered association lists.
-/

/-- A user record (interfaces/users.ts). Fields the pages read defensively
(optional chaining, nullish coalescing, falsy tests) are modelled as Option. -/
structure User where
  id : Nat
  name : Option String
  surname : Option String
  phone : Option String
  plate_number : Option String
  car_model : Option String
  type : Option String
  is_active : Bool
  is_onboarded : Bool
  last_login_at : Option Int
  reward_amount : Option Int
deriving DecidableEq

/-- A company record (interfaces/trips.ts), only the field the pages read. -/
structure Company where
  id : Nat
  name : Option String
deriving DecidableEq

/-- A trip record (interfaces/trips.ts), the fields the pages read. -/
structure Trip where
  id : Nat
  code : Option String
  guide : Option User
  driver : Option User
  company : Option Company
  is_finished : Bool
  is_cancelled : Bool
  total_amount : Option Int
deriving DecidableEq

/-- The JSON body of a response as httpGet reads it: the message field
(none = absent or undefined) and the data field (none = null or absent). -/
structure ParsedBody (T : Type) where
  message : Option String
  data : Option T
deriving DecidableEq

/-- An HTTP response as seen by httpGet: the status code and the result of
parsing the body as JSON (none = the body is not valid JSON). -/
structure HttpResponse (T : Type) where
  status : Nat
  body : Option (ParsedBody T)
deriving DecidableEq

/-- fetch Response.ok: status in the inclusive range 200..299. -/
def resOk (status : Nat) : Bool := 200 ≤ status && status ≤ 299

/-- Outcome of httpGet: a returned value, a thrown Error with its message, or
a JSON parse failure propagating out of the success path. -/
inductive FetchResult (T : Type) where
  | ok (data : Option T)
  | thrown (msg : String)
  | parseFailure
deriving DecidableEq

/-- The JS expression a || b for an optional string a: undefined and the
empty string are falsy and fall back to b. -/
def jsOrStr (a : Option String) (b : String) : String :=
  match a with
  | none => b
  | some s => if s = "" then b else s

/-- lib/httpHelper.ts httpGet: on a non-ok status build the generic message,
try to replace it with a truthy body message, and throw; on an ok status
parse the envelope and return only its data field. -/
def httpGet {T : Type} (res : HttpResponse T) : FetchResult T :=
  if resOk res.status then
    match res.body with
    | none => FetchResult.parseFailure
    | some b => FetchResult.ok b.data
  else
    FetchResult.thrown
      (jsOrStr (res.body.bind ParsedBody.message)
        ("HTTP error! status: " ++ toString res.status))

/-- Characterwise prefix test: the first list starts the second. -/
def startsWithChars : List Char → List Char → Bool
  | [], _ => true
  | _ :: _, [] => false
  | a :: as, b :: bs => a == b && startsWithChars as bs

/-- JS String.includes modelled characterwise: the needle occurs as a
contiguous substring of the haystack. -/
def includesChars (needle : List Char) : List Char → Bool
  | [] => startsWithChars needle []
  | c :: hay => startsWithChars needle (c :: hay) || includesChars needle hay

/-- JS hay.includes(needle). -/
def jsIncludes (hay needle : String) : Bool := includesChars needle.data hay.data

/-- JS String.toLowerCase modelled characterwise. -/
def jsToLower (s : String) : String := String.mk (s.data.map Char.toLower)

/-- JS optional chaining x?.f(...) used in a boolean position: an undefined
receiver makes the whole chain undefined, which is falsy. -/
def optTest (f : Option String) (p : String → Bool) : Bool :=
  match f with
  | none => false
  | some s => p s

/-- app/page.tsx search match: name, surname and plate number are compared
lowercased against the lowercased term; phone uses includes directly. -/
def dashMatchesSearch (u : User) (term : String) : Bool :=
  optTest u.name (fun s => jsIncludes (jsToLower s) (jsToLower term)) ||
  optTest u.surname (fun s => jsIncludes (jsToLower s) (jsToLower term)) ||
  optTest u.phone (fun s => jsIncludes s term) ||
  optTest u.plate_number (fun s => jsIncludes (jsToLower s) (jsToLower term))

/-- app/page.tsx type match: filterType === "all" || user.type === filterType. -/
def dashMatchesType (u : User) (fty : String) : Bool :=
  fty == "all" || u.type == some fty

/-- The filter stage of the dashboard filteredUsers memo. -/
def dashFilter (users : List User) (term fty : String) : List User :=
  users.filter (fun u => dashMatchesSearch u term && dashMatchesType u fty)

/-- The dashboard sort comparator: reward amount descending with nullish
reward as 0, ties broken by onboarded status descending. -/
def userCmp (a b : User) : Int :=
  let rewardA := a.reward_amount.getD 0
  let rewardB := b.reward_amount.getD 0
  if rewardA ≠ rewardB then rewardB - rewardA
  else
    let onboardedA : Int := if a.is_onboarded then 1 else 0
    let onboardedB : Int := if b.is_onboarded then 1 else 0
    onboardedB - onboardedA

/-- Array.prototype.sort with a consistent comparator: stable, ordered by
comparator value at most 0; modelled by a stable merge sort. -/
def jsSort (cmp : User → User → Int) (l : List User) : List User :=
  l.mergeSort (fun a b => cmp a b ≤ 0)

/-- app/page.tsx filteredUsers: filter then sort. -/
def filteredUsersDash (users : List User) (term fty : String) : List User :=
  jsSort userCmp (dashFilter users term fty)

/-- Trips page search match over a trip: guide and driver names lowercased,
guide and driver phones by direct includes, code and company name lowercased. -/
def tripMatchesSearch (t : Trip) (term : String) : Bool :=
  optTest (t.guide.bind User.name) (fun s => jsIncludes (jsToLower s) (jsToLower term)) ||
  optTest (t.guide.bind User.surname) (fun s => jsIncludes (jsToLower s) (jsToLower term)) ||
  optTest (t.driver.bind User.name) (fun s => jsIncludes (jsToLower s) (jsToLower term)) ||
  optTest (t.driver.bind User.surname) (fun s => jsIncludes (jsToLower s) (jsToLower term)) ||
  optTest (t.guide.bind User.phone) (fun s => jsIncludes s term) ||
  optTest (t.driver.bind User.phone) (fun s => jsIncludes s term) ||
  optTest t.code (fun s => jsIncludes (jsToLower s) (jsToLower term)) ||
  optTest (t.company.bind Company.name) (fun s => jsIncludes (jsToLower s) (jsToLower term))

/-- Trips page type match over a trip. -/
def tripMatchesType (t : Trip) (fty : String) : Bool :=
  fty == "all" ||
  (fty == "finished" && t.is_finished) ||
  (fty == "cancelled" && t.is_cancelled) ||
  (fty == "active" && !t.is_finished && !t.is_cancelled)

/-- Trips page filteredTrips memo. -/
def filteredTrips (trips : List Trip) (term fty : String) : List Trip :=
  trips.filter (fun t => tripMatchesSearch t term && tripMatchesType t fty)

/-- trips.map(t => t.guide).filter(g => !!g): the guides embedded in the
trip list, in trip order, dropping absent guides. -/
def guidesOf (trips : List Trip) : List User :=
  (trips.map Trip.guide).filterMap id

/-- JS Array.prototype.filter with an index-aware callback, started at a
given index. -/
def filterIdxFrom {α : Type} (cb : α → Nat → Bool) : Nat → List α → List α
  | _, [] => []
  | i, x :: t => if cb x i then x :: filterIdxFrom cb (i + 1) t else filterIdxFrom cb (i + 1) t

/-- guides.filter((g, index, self) => index === self.findIndex(h => h.id === g.id)):
keep an element exactly when its index is the first index carrying its id. -/
def dedupById (l : List User) : List User :=
  filterIdxFrom (fun u i => l.findIdx (fun g => g.id == u.id) == i) 0 l

/-- Reference form of first-occurrence deduplication: keep the head and
recurse on the tail purged of the head id. -/
def nubById : List User → List User
  | [] => []
  | u :: t => u :: nubById (t.filter (fun g => !(g.id == u.id)))
termination_by l => l.length
decreasing_by
  simp only [List.length_cons]
  exact Nat.lt_succ_of_le (List.length_filter_le _ t)

/-- Seen-set form of first-occurrence deduplication, used to relate the
index-based JS filter to nubById. -/
def firstOccur (seen : List Nat) : List User → List User
  | [] => []
  | u :: t =>
    if seen.contains u.id then firstOccur seen t
    else u :: firstOccur (u.id :: seen) t

/-- Trips page search match over a user on the users tab. -/
def tripsUserMatchesSearch (u : User) (term : String) : Bool :=
  optTest u.name (fun s => jsIncludes (jsToLower s) (jsToLower term)) ||
  optTest u.surname (fun s => jsIncludes (jsToLower s) (jsToLower term)) ||
  optTest u.phone (fun s => jsIncludes s term) ||
  optTest u.plate_number (fun s => jsIncludes (jsToLower s) (jsToLower term)) ||
  optTest u.car_model (fun s => jsIncludes (jsToLower s) (jsToLower term))

/-- Trips page type match over a user: (user.type || "unknown") === filterType. -/
def tripsUserMatchesType (u : User) (fty : String) : Bool :=
  fty == "all" || jsOrStr u.type "unknown" == fty

/-- Trips page filteredUsers memo: guides of the trips, deduplicated by id,
then filtered by search and type. No sort stage is present. -/
def filteredUsersTrips (trips : List Trip) (term fty : String) : List User :=
  (dedupById (guidesOf trips)).filter
    (fun u => tripsUserMatchesSearch u term && tripsUserMatchesType u fty)

/-- Milliseconds per day, the divisor 1000 * 60 * 60 * 24 of the trips page. -/
def msPerDay : Int := 86400000

/-- Dashboard recent-login predicate: loginDate > weekAgo, where weekAgo is
now with setDate(getDate() - 7), modelled as now minus 7 days in ms. -/
def recentDash (now : Int) (lastLogin : Option Int) : Bool :=
  match lastLogin with
  | none => false
  | some t => now - 7 * msPerDay < t

/-- Trips page recent-login predicate: elapsed time in fractional days is at
most 7; the division is exact in Rat. -/
def recentTrips (now : Int) (lastLogin : Option Int) : Bool :=
  match lastLogin with
  | none => false
  | some t => ((now - t : Int) : Rat) / ((1000 * 60 * 60 * 24 : Int) : Rat) ≤ 7

/-- JS property-key coercion: an undefined key becomes the string value
used for the key of acc[user.type] when type is absent. -/
def jsKey (s : Option String) : String :=
  match s with
  | none => "undefined"
  | some s => s

/-- One step of acc[k] = (acc[k] || 0) + 1 on a JS object modelled as an
insertion-ordered association list. -/
def bump (acc : List (String × Nat)) (k : String) : List (String × Nat) :=
  if (acc.lookup k).isSome then
    acc.map (fun p => if p.1 == k then (p.1, p.2 + 1) else p)
  else acc ++ [(k, 1)]

/-- Histogram of a key function over a list, by repeated bump from the
empty object. -/
def histBy {α : Type} (f : α → String) (l : List α) : List (String × Nat) :=
  l.foldl (fun acc x => bump acc (f x)) []

/-- Dashboard userTypes reduce: keyed by the raw user.type property. -/
def userTypesDash (users : List User) : List (String × Nat) :=
  histBy (fun u => jsKey u.type) users

/-- Trips page userTypes loop: keyed by g.type || "unknown". -/
def userTypesTrips (users : List User) : List (String × Nat) :=
  histBy (fun u => jsOrStr u.type "unknown") users

/-- Trips page status classification, also the status badge text lowercased:
finished first, then cancelled, else active. -/
def classifyTrip (t : Trip) : String :=
  if t.is_finished then "finished" else if t.is_cancelled then "cancelled" else "active"

/-- Trips page tripStatuses reduce over the classification. -/
def tripStatuses (trips : List Trip) : List (String × Nat) :=
  histBy classifyTrip trips

/-- Dashboard statistics block (app/page.tsx stats memo), with percentages
as exact rationals; now is the evaluation time in epoch ms. -/
structure DashStats where
  totalUsers : Nat
  activeUsers : Nat
  onboardedUsers : Nat
  recentLogins : Nat
  userTypes : List (String × Nat)
  activePercentage : Rat
  onboardedPercentage : Rat
deriving DecidableEq

def statsDash (now : Int) (users : List User) : DashStats :=
  let totalUsers := users.length
  let activeUsers := (users.filter (fun u => u.is_active)).length
  let onboardedUsers := (users.filter (fun u => u.is_onboarded)).length
  let recentLogins := (users.filter (fun u => recentDash now u.last_login_at)).length
  { totalUsers := totalUsers
    activeUsers := activeUsers
    onboardedUsers := onboardedUsers
    recentLogins := recentLogins
    userTypes := userTypesDash users
    activePercentage :=
      if totalUsers > 0 then ((activeUsers : Rat) / (totalUsers : Rat)) * 100 else 0
    onboardedPercentage :=
      if totalUsers > 0 then ((onboardedUsers : Rat) / (totalUsers : Rat)) * 100 else 0 }

/-- Trips page statistics block (stats memo). -/
structure TripsStats where
  totalTrips : Nat
  finishedTrips : Nat
  cancelledTrips : Nat
  activeTrips : Nat
  tripStatuses : List (String × Nat)
  totalAmount : Int
  totalUsers : Nat
  activeUsers : Nat
  onboardedUsers : Nat
  recentLogins : Nat
  userTypes : List (String × Nat)
  finishedPercentage : Rat
  cancelledPercentage : Rat
  activePercentage : Rat
  onboardedPercentage : Rat
deriving DecidableEq

def statsTrips (now : Int) (trips : List Trip) : TripsStats :=
  let totalTrips := trips.length
  let finishedTrips := (trips.filter (fun t => t.is_finished)).length
  let cancelledTrips := (trips.filter (fun t => t.is_cancelled)).length
  let activeTrips := (trips.filter (fun t => !t.is_finished && !t.is_cancelled)).length
  let uniqueGuides := dedupById (guidesOf trips)
  let totalUsers := uniqueGuides.length
  let activeUsers := (uniqueGuides.filter (fun u => u.is_active)).length
  let onboardedUsers := (uniqueGuides.filter (fun u => u.is_onboarded)).length
  let recentLogins := (uniqueGuides.filter (fun u => recentTrips now u.last_login_at)).length
  { totalTrips := totalTrips
    finishedTrips := finishedTrips
    cancelledTrips := cancelledTrips
    activeTrips := activeTrips
    tripStatuses := tripStatuses trips
    totalAmount := trips.foldl (fun s t => s + t.total_amount.getD 0) 0
    totalUsers := totalUsers
    activeUsers := activeUsers
    onboardedUsers := onboardedUsers
    recentLogins := recentLogins
    userTypes := userTypesTrips uniqueGuides
    finishedPercentage :=
      if totalTrips > 0 then ((finishedTrips : Rat) / (totalTrips : Rat)) * 100 else 0
    cancelledPercentage :=
      if totalTrips > 0 then ((cancelledTrips : Rat) / (totalTrips : Rat)) * 100 else 0
    activePercentage :=
      if totalUsers > 0 then ((activeUsers : Rat) / (totalUsers : Rat)) * 100 else 0
    onboardedPercentage :=
      if totalUsers > 0 then ((onboardedUsers : Rat) / (totalUsers : Rat)) * 100 else 0 }

/-- Reward key of the sort: nullish reward amount counts as 0. -/
def rewardOf (u : User) : Int := u.reward_amount.getD 0

/-- Onboarded flag as the number the comparator uses. -/
def onbNum (u : User) : Int := if u.is_onboarded then 1 else 0

/-- Spec reading of the search claim: a case-insensitive substring match on
every searched dashboard field, phone included. -/
def spec_ciKeptDash (u : User) (term : String) : Bool :=
  [u.name, u.surname, u.phone, u.plate_number].any
    (fun f => optTest f (fun s => jsIncludes (jsToLower s) (jsToLower term)))

/-- A user template with only a name; concrete records below override fields. -/
def baseUser : User :=
  { id := 0, name := some "name", surname := none, phone := none, plate_number := none,
    car_model := none, type := none, is_active := false, is_onboarded := false,
    last_login_at := none, reward_amount := none }

/-- A trip template; concrete records below override fields. -/
def baseTrip : Trip :=
  { id := 0, code := some "code", guide := none, driver := none, company := none,
    is_finished := false, is_cancelled := false, total_amount := none }

/-- A user whose only searched content is an upper-case phone string. -/
def uPhone : User :=
  { baseUser with id := 1, name := none, phone := some "ABC" }

/-- The sort example users of the spec: reward 5 not onboarded, reward 5
onboarded, reward 10 not onboarded. -/
def exR5F : User := { baseUser with id := 1, reward_amount := some 5 }

def exR5T : User := { baseUser with id := 2, reward_amount := some 5, is_onboarded := true }

def exR10F : User := { baseUser with id := 3, reward_amount := some 10 }

/-- Two users with identical sort keys and distinct ids, for stability. -/
def stA : User := { baseUser with id := 11, reward_amount := some 5, is_onboarded := true }

def stB : User := { baseUser with id := 12, reward_amount := some 5, is_onboarded := true }

/-- A trip carrying a given guide. -/
def mkGuideTrip (u : User) : Trip := { baseTrip with guide := some u }

/-- Guides with unsorted rewards embedded in trips. -/
def gLow : User := { baseUser with id := 1, reward_amount := some 5 }

def gHigh : User := { baseUser with id := 2, reward_amount := some 10 }

/-- A user whose type is the empty string. -/
def uEmptyType : User := { baseUser with id := 7, type := some "" }

/-- An active user for the percentage witness. -/
def demoActive : User := { baseUser with id := 8, is_active := true }

/-- A trip with both status flags set. -/
def tBoth : Trip := { baseTrip with id := 9, is_finished := true, is_cancelled := true }

/-- Two distinct user records sharing the id 5. -/
def gDupFirst : User := { baseUser with id := 5, name := some "first" }

def gDupSecond : User := { baseUser with id := 5, name := some "second" }

/-- A trip list in which the same guide id occurs twice. -/
def dupGuideTrips : List Trip :=
  [mkGuideTrip gDupFirst, mkGuideTrip gHigh, mkGuideTrip gDupSecond]

/-- A user whose last login is the epoch. -/
def uLogin0 : User := { baseUser with id := 10, last_login_at := some 0 }

theorem recentTrips_some (now t : Int) :
    recentTrips now (some t) = decide (now - t ≤ 7 * msPerDay) := by
  simp only [recentTrips, msPerDay]
  rw [decide_eq_decide]
  rw [div_le_iff₀ (by norm_num : (0 : Rat) < ((1000 * 60 * 60 * 24 : Int) : Rat))]
  constructor
  · intro h
    have h2 := h
    push_cast at h2
    exact_mod_cast h2
  · intro h
    push_cast
    exact_mod_cast h

/-- C1: on every non-2xx response httpGet never returns a value: it throws,
with the body message when the body parses as JSON carrying a non-empty
message, and otherwise with the generic status text. -/
theorem httpGet_non2xx_throws {T : Type} (res : HttpResponse T) (h : resOk res.status = false) :
    (∀ d, httpGet res ≠ FetchResult.ok d) ∧
    httpGet res ≠ FetchResult.parseFailure ∧
    (∀ b m, res.body = some b → b.message = some m → m ≠ "" →
      httpGet res = FetchResult.thrown m) ∧
    (res.body.bind ParsedBody.message = none ∨ res.body.bind ParsedBody.message = some "" →
      httpGet res = FetchResult.thrown ("HTTP error! status: " ++ toString res.status)) := by
  simp only [httpGet, h, Bool.false_eq_true, if_false]
  refine ⟨fun d => by simp, by simp, ?_, ?_⟩
  · intro b m hb hm hne
    rw [hb]
    simp [jsOrStr, hm, hne]
  · intro hmsg
    rcases hmsg with hmsg | hmsg <;> rw [hmsg] <;> simp [jsOrStr]

theorem httpGet_non2xx_throws_witness :
    httpGet (T := List Nat) ⟨404, some ⟨some "not found", none⟩⟩ = FetchResult.thrown "not found" ∧
    httpGet (T := List Nat) ⟨500, none⟩ = FetchResult.thrown "HTTP error! status: 500" :=
  ⟨(httpGet_non2xx_throws ⟨404, some ⟨some "not found", none⟩⟩ (by decide)).2.2.1
      ⟨some "not found", none⟩ "not found" rfl rfl (by decide),
   (httpGet_non2xx_throws ⟨500, none⟩ (by decide)).2.2.2 (Or.inl rfl)⟩

/-- C2: on every 2xx response whose body parses as an envelope, httpGet
returns exactly the data field of the envelope, discarding the message. -/
theorem httpGet_2xx_returns_data {T : Type} (res : HttpResponse T) (b : ParsedBody T)
    (hok : resOk res.status = true) (hb : res.body = some b) :
    httpGet res = FetchResult.ok b.data := by
  simp [httpGet, hok, hb]

theorem httpGet_2xx_returns_data_witness :
    httpGet (T := List Nat) ⟨200, some ⟨some "ok", some [1]⟩⟩ = FetchResult.ok (some [1]) :=
  httpGet_2xx_returns_data ⟨200, some ⟨some "ok", some [1]⟩⟩ ⟨some "ok", some [1]⟩ (by decide) rfl

theorem lookup_cons_self {β : Type} (k : String) (v : β) (t : List (String × β)) :
    ((k, v) :: t).lookup k = some v := by
  simp [List.lookup_cons]

theorem lookup_cons_ne {β : Type} {k a : String} (h : k ≠ a) (v : β) (t : List (String × β)) :
    ((a, v) :: t).lookup k = t.lookup k := by
  have hb : (k == a) = false := beq_eq_false_iff_ne.mpr h
  simp [List.lookup_cons, hb]

theorem lookup_map_bumpKey (acc : List (String × Nat)) (j k : String) :
    (acc.map (fun p => if p.1 == j then (p.1, p.2 + 1) else p)).lookup k =
      if j = k then (acc.lookup k).map (· + 1) else acc.lookup k := by
  induction acc with
  | nil => simp
  | cons a t ih =>
    obtain ⟨ak, av⟩ := a
    rw [List.map_cons]
    dsimp only
    have hhead : (if (ak == j) = true then (ak, av + 1) else (ak, av))
        = (ak, if ak = j then av + 1 else av) := by
      by_cases hj : ak = j <;> simp [hj]
    rw [hhead]
    by_cases hk : k = ak
    · subst hk
      rw [lookup_cons_self, lookup_cons_self]
      by_cases hj : k = j
      · rw [if_pos hj, if_pos hj.symm]
        rfl
      · rw [if_neg hj, if_neg (fun e => hj e.symm)]
    · rw [lookup_cons_ne hk, lookup_cons_ne hk, ih]

theorem lookup_append_one (acc : List (String × Nat)) (j k : String) :
    (acc ++ [(j, 1)]).lookup k =
      if j = k ∧ acc.lookup k = none then some 1 else acc.lookup k := by
  induction acc with
  | nil =>
    by_cases hjk : j = k
    · subst hjk
      rw [List.nil_append, lookup_cons_self]
      simp
    · rw [List.nil_append, lookup_cons_ne (fun e => hjk e.symm)]
      simp [hjk]
  | cons a t ih =>
    obtain ⟨ak, av⟩ := a
    rw [List.cons_append]
    by_cases hk : k = ak
    · subst hk
      rw [lookup_cons_self, lookup_cons_self]
      simp
    · rw [lookup_cons_ne hk, lookup_cons_ne hk, ih]

theorem lookup_bump (acc : List (String × Nat)) (j k : String) :
    (bump acc j).lookup k =
      if j = k then some ((acc.lookup k).getD 0 + 1) else acc.lookup k := by
  unfold bump
  by_cases hs : (acc.lookup j).isSome
  · rw [if_pos hs, lookup_map_bumpKey]
    by_cases hjk : j = k
    · subst hjk
      obtain ⟨v, hv⟩ := Option.isSome_iff_exists.mp hs
      rw [hv]
      simp
    · simp [hjk]
  · rw [if_neg hs, lookup_append_one]
    by_cases hjk : j = k
    · subst hjk
      have hnone : acc.lookup j = none := Option.not_isSome_iff_eq_none.mp hs
      simp [hnone]
    · simp [hjk]

theorem lookup_histBy_from {α : Type} (f : α → String) (k : String) :
    ∀ (l : List α) (acc : List (String × Nat)),
      (l.foldl (fun a x => bump a (f x)) acc).lookup k =
        if l.countP (fun x => f x == k) = 0 then acc.lookup k
        else some ((acc.lookup k).getD 0 + l.countP (fun x => f x == k)) := by
  intro l
  induction l with
  | nil => intro acc; simp
  | cons x t ih =>
    intro acc
    rw [List.foldl_cons, ih (bump acc (f x)), List.countP_cons, lookup_bump]
    by_cases hx : f x = k
    · have hone : (if (f x == k) = true then 1 else 0) = 1 := by simp [hx]
      rw [if_pos hx, hone, Option.getD_some]
      by_cases ht : t.countP (fun x => f x == k) = 0
      · rw [if_pos ht, if_neg (by omega), ht]
      · rw [if_neg ht, if_neg (by omega)]
        congr 1
        omega
    · have hzero : (if (f x == k) = true then 1 else 0) = 0 := by simp [hx]
      rw [if_neg hx, hzero]
      simp

theorem lookup_histBy {α : Type} (f : α → String) (l : List α) (k : String) :
    (histBy f l).lookup k =
      if l.countP (fun x => f x == k) = 0 then none
      else some (l.countP (fun x => f x == k)) := by
  have h := lookup_histBy_from f k l []
  simpa [histBy] using h

theorem getD_lookup_histBy {α : Type} (f : α → String) (l : List α) (k : String) :
    ((histBy f l).lookup k).getD 0 = l.countP (fun x => f x == k) := by
  rw [lookup_histBy]
  by_cases h : l.countP (fun x => f x == k) = 0
  · simp [h]
  · simp [h]

theorem countP_classify_sum (trips : List Trip) :
    trips.countP (fun t => classifyTrip t == "finished")
      + trips.countP (fun t => classifyTrip t == "cancelled")
      + trips.countP (fun t => classifyTrip t == "active") = trips.length := by
  induction trips with
  | nil => rfl
  | cons t ts ih =>
    simp only [classifyTrip] at ih ⊢
    rw [List.countP_cons, List.countP_cons, List.countP_cons, List.length_cons]
    by_cases hf : t.is_finished <;> by_cases hc : t.is_cancelled <;>
      simp +decide [hf, hc] <;> omega

/-- C8 counterexample: in the dashboard histogram a user whose type is the
empty string is keyed under the raw empty string; no "unknown" bucket is
created, contradicting the claimed unknown-bucketing for that histogram. -/
theorem user_types_unknown_counterexample :
    (userTypesDash [uEmptyType]).lookup "unknown" = none ∧
    (userTypesDash [uEmptyType]).lookup "" = some 1 := by
  constructor <;> decide

/-- C8 amended: each type histogram maps a key to the number of users whose
bucketed type equals that key; the trips page buckets missing and empty
types as "unknown", while the dashboard keys by the raw type value. -/
theorem user_type_histogram_amended (users : List User) (k : String) :
    ((userTypesTrips users).lookup k =
      if users.countP (fun u => jsOrStr u.type "unknown" == k) = 0 then none
      else some (users.countP (fun u => jsOrStr u.type "unknown" == k))) ∧
    ((userTypesDash users).lookup k =
      if users.countP (fun u => jsKey u.type == k) = 0 then none
      else some (users.countP (fun u => jsKey u.type == k))) ∧
    (∀ u ∈ users, u.type = none ∨ u.type = some "" → jsOrStr u.type "unknown" = "unknown") := by
  refine ⟨lookup_histBy _ users k, lookup_histBy _ users k, ?_⟩
  intro u _ h
  rcases h with h | h <;> rw [h] <;> rfl

theorem user_type_histogram_amended_witness :
    ((userTypesTrips [uEmptyType]).lookup "unknown" =
      if [uEmptyType].countP (fun u => jsOrStr u.type "unknown" == "unknown") = 0 then none
      else some ([uEmptyType].countP (fun u => jsOrStr u.type "unknown" == "unknown"))) ∧
    jsOrStr uEmptyType.type "unknown" = "unknown" :=
  ⟨(user_type_histogram_amended [uEmptyType] "unknown").1,
   (user_type_histogram_amended [uEmptyType] "unknown").2.2 uEmptyType (by decide)
     (Or.inr (by decide))⟩

/-- C9: a trip with both flags set classifies as finished (finished has
priority), every trip falls in exactly one of the three buckets, and the
three bucket counts sum to the total trip count. -/
theorem trip_status_priority (trips : List Trip) :
    (∀ t ∈ trips, t.is_finished = true → t.is_cancelled = true → classifyTrip t = "finished") ∧
    (∀ t ∈ trips,
      (classifyTrip t = "finished" ∧ classifyTrip t ≠ "cancelled" ∧ classifyTrip t ≠ "active") ∨
      (classifyTrip t = "cancelled" ∧ classifyTrip t ≠ "finished" ∧ classifyTrip t ≠ "active") ∨
      (classifyTrip t = "active" ∧ classifyTrip t ≠ "finished" ∧ classifyTrip t ≠ "cancelled")) ∧
    ((tripStatuses trips).lookup "finished").getD 0
      + ((tripStatuses trips).lookup "cancelled").getD 0
      + ((tripStatuses trips).lookup "active").getD 0 = trips.length := by
  refine ⟨?_, ?_, ?_⟩
  · intro t _ hf _
    simp [classifyTrip, hf]
  · intro t _
    by_cases hf : t.is_finished <;> by_cases hc : t.is_cancelled <;>
      simp +decide [classifyTrip, hf, hc]
  · rw [tripStatuses, getD_lookup_histBy, getD_lookup_histBy, getD_lookup_histBy]
    exact countP_classify_sum trips

theorem trip_status_priority_witness :
    classifyTrip tBoth = "finished" :=
  (trip_status_priority [tBoth]).1 tBoth (by decide) (by decide) (by decide)

theorem guidesOf_singleton (u : User) : guidesOf [mkGuideTrip u] = [u] := by
  simp [guidesOf, mkGuideTrip, baseTrip]

theorem dedupById_singleton (u : User) : dedupById [u] = [u] := by
  simp [dedupById, filterIdxFrom, List.findIdx_cons]

/-- C6: every percentage statistic equals 0 when its total is 0 and
count / total * 100 otherwise, on both pages. -/
theorem stats_percentages (now : Int) (users : List User) (trips : List Trip) :
    ((statsDash now users).totalUsers = 0 →
      (statsDash now users).activePercentage = 0 ∧
      (statsDash now users).onboardedPercentage = 0) ∧
    ((statsDash now users).totalUsers ≠ 0 →
      (statsDash now users).activePercentage
          = ((statsDash now users).activeUsers : Rat) / ((statsDash now users).totalUsers : Rat) * 100 ∧
      (statsDash now users).onboardedPercentage
          = ((statsDash now users).onboardedUsers : Rat) / ((statsDash now users).totalUsers : Rat) * 100) ∧
    ((statsTrips now trips).totalTrips = 0 →
      (statsTrips now trips).finishedPercentage = 0 ∧
      (statsTrips now trips).cancelledPercentage = 0) ∧
    ((statsTrips now trips).totalTrips ≠ 0 →
      (statsTrips now trips).finishedPercentage
          = ((statsTrips now trips).finishedTrips : Rat) / ((statsTrips now trips).totalTrips : Rat) * 100 ∧
      (statsTrips now trips).cancelledPercentage
          = ((statsTrips now trips).cancelledTrips : Rat) / ((statsTrips now trips).totalTrips : Rat) * 100) ∧
    ((statsTrips now trips).totalUsers = 0 →
      (statsTrips now trips).activePercentage = 0 ∧
      (statsTrips now trips).onboardedPercentage = 0) ∧
    ((statsTrips now trips).totalUsers ≠ 0 →
      (statsTrips now trips).activePercentage
          = ((statsTrips now trips).activeUsers : Rat) / ((statsTrips now trips).totalUsers : Rat) * 100 ∧
      (statsTrips now trips).onboardedPercentage
          = ((statsTrips now trips).onboardedUsers : Rat) / ((statsTrips now trips).totalUsers : Rat) * 100) := by
  refine ⟨?_, ?_, ?_, ?_, ?_, ?_⟩ <;> intro h <;>
    simp only [statsDash, statsTrips] at h ⊢ <;>
    exact ⟨by first | rw [if_neg (by omega)] | rw [if_pos (by omega)],
           by first | rw [if_neg (by omega)] | rw [if_pos (by omega)]⟩

theorem stats_percentages_witness :
    (statsDash 0 [demoActive]).activePercentage
        = ((statsDash 0 [demoActive]).activeUsers : Rat)
            / ((statsDash 0 [demoActive]).totalUsers : Rat) * 100 ∧
    (statsTrips 0 []).finishedPercentage = 0 :=
  ⟨((stats_percentages 0 [demoActive] []).2.1 (by decide)).1,
   ((stats_percentages 0 [demoActive] []).2.2.1 (by decide)).1⟩

/-- C7: a last login exactly 6 days before evaluation time is counted as
recent by both pages; exactly 7 days and 1 second before is not. -/
theorem recent_login_boundary (now : Int) (u : User) :
    (u.last_login_at = some (now - 6 * msPerDay) →
      recentDash now u.last_login_at = true ∧ recentTrips now u.last_login_at = true ∧
      (statsDash now [u]).recentLogins = 1 ∧
      (statsTrips now [mkGuideTrip u]).recentLogins = 1) ∧
    (u.last_login_at = some (now - (7 * msPerDay + 1000)) →
      recentDash now u.last_login_at = false ∧ recentTrips now u.last_login_at = false ∧
      (statsDash now [u]).recentLogins = 0 ∧
      (statsTrips now [mkGuideTrip u]).recentLogins = 0) := by
  constructor
  · intro h
    have hd : recentDash now u.last_login_at = true := by
      rw [h]
      simp only [recentDash, msPerDay, decide_eq_true_eq]
      omega
    have ht : recentTrips now u.last_login_at = true := by
      rw [h, recentTrips_some, decide_eq_true_eq]
      simp only [msPerDay]
      omega
    refine ⟨hd, ht, ?_, ?_⟩
    · simp only [statsDash]
      simp [hd]
    · simp only [statsTrips, guidesOf_singleton, dedupById_singleton]
      simp [ht]
  · intro h
    have hd : recentDash now u.last_login_at = false := by
      rw [h]
      simp only [recentDash, msPerDay, decide_eq_false_iff_not]
      omega
    have ht : recentTrips now u.last_login_at = false := by
      rw [h, recentTrips_some, decide_eq_false_iff_not]
      simp only [msPerDay]
      omega
    refine ⟨hd, ht, ?_, ?_⟩
    · simp only [statsDash]
      simp [hd]
    · simp only [statsTrips, guidesOf_singleton, dedupById_singleton]
      simp [ht]

theorem recent_login_boundary_witness :
    recentDash (6 * 86400000) uLogin0.last_login_at = true ∧
    recentDash (7 * 86400000 + 1000) uLogin0.last_login_at = false :=
  ⟨((recent_login_boundary (6 * 86400000) uLogin0).1 (by decide)).1,
   ((recent_login_boundary (7 * 86400000 + 1000) uLogin0).2 (by decide)).1⟩

/-- C10 counterexample: at a last login exactly seven days before now, the
dashboard predicate excludes the user while the trips page predicate
includes them, so the two classifications differ. -/
theorem recent_predicates_disagree_at_boundary :
    recentDash (7 * 86400000) (some 0) = false ∧
    recentTrips (7 * 86400000) (some 0) = true := by
  constructor
  · decide
  · rw [recentTrips_some]
    decide

/-- C10 amended: the two recent-login predicates classify every pair
identically except exactly at the 7-day boundary, and agree on a missing
last login. -/
theorem recent_predicates_agree_off_boundary (now : Int) (lastLogin : Option Int)
    (h : lastLogin ≠ some (now - 7 * msPerDay)) :
    recentDash now lastLogin = recentTrips now lastLogin := by
  cases lastLogin with
  | none => rfl
  | some t =>
    rw [recentTrips_some]
    have ht : t ≠ now - 7 * msPerDay := fun e => h (by rw [e])
    simp only [recentDash, msPerDay] at ht ⊢
    rw [Bool.eq_iff_iff]
    simp only [decide_eq_true_eq]
    omega

theorem recent_predicates_agree_off_boundary_witness :
    recentDash 0 (some 86400000) = recentTrips 0 (some 86400000) :=
  recent_predicates_agree_off_boundary 0 (some 86400000) (by decide)

theorem mem_nubById : ∀ (l : List User) (u : User), u ∈ nubById l → u ∈ l := by
  intro l
  induction l using nubById.induct with
  | case1 => intro u h; simp [nubById] at h
  | case2 v t ih =>
    intro u h
    rw [nubById] at h
    rcases List.mem_cons.mp h with h | h
    · exact h ▸ List.mem_cons_self _ _
    · exact List.mem_cons_of_mem _ (List.mem_of_mem_filter (ih u h))

theorem nubById_pairwise : ∀ l : List User,
    (nubById l).Pairwise (fun a b => a.id ≠ b.id) := by
  intro l
  induction l using nubById.induct with
  | case1 => simp [nubById]
  | case2 v t ih =>
    rw [nubById]
    refine List.pairwise_cons.mpr ⟨?_, ih⟩
    intro b hb
    have hbf := List.mem_filter.mp (mem_nubById _ _ hb)
    have : (b.id == v.id) = false := by simpa using hbf.2
    have hne : b.id ≠ v.id := by simpa using this
    exact fun e => hne (e.symm)

theorem nubById_of_pairwise : ∀ l : List User,
    l.Pairwise (fun a b => a.id ≠ b.id) → nubById l = l := by
  intro l
  induction l using nubById.induct with
  | case1 => intro _; rw [nubById]
  | case2 v t ih =>
    intro hp
    rw [nubById]
    have hfe : t.filter (fun g => !(g.id == v.id)) = t := by
      apply List.filter_eq_self.mpr
      intro a ha
      have hva : v.id ≠ a.id := (List.pairwise_cons.mp hp).1 a ha
      simp [Ne.symm hva]
    rw [hfe] at ih
    rw [hfe, ih (List.pairwise_cons.mp hp).2]

theorem filter_findIdx_get (p q : User → Bool)
    (hpq : ∀ x, q x = false → p x = false) :
    ∀ t : List User, (t.filter q).get? ((t.filter q).findIdx p) = t.get? (t.findIdx p) := by
  intro t
  induction t with
  | nil => simp
  | cons x t' ih =>
    by_cases hq : q x = true
    · rw [List.filter_cons_of_pos hq]
      by_cases hp : p x = true
      · rw [List.findIdx_cons, List.findIdx_cons, hp]
        rfl
      · have hpf : p x = false := by simpa using hp
        rw [List.findIdx_cons, List.findIdx_cons, hpf]
        simp only [cond_false]
        rw [List.get?_cons_succ, List.get?_cons_succ]
        exact ih
    · have hqf : q x = false := by simpa using hq
      have hpf : p x = false := hpq x hqf
      rw [List.filter_cons_of_neg hq, List.findIdx_cons, hpf]
      simp only [cond_false]
      rw [List.get?_cons_succ]
      exact ih

theorem nubById_first_get : ∀ (l : List User) (u : User), u ∈ nubById l →
    l.get? (l.findIdx (fun g => g.id == u.id)) = some u := by
  intro l
  induction l using nubById.induct with
  | case1 => intro u h; simp [nubById] at h
  | case2 v t ih =>
    intro u h
    rw [nubById] at h
    rcases List.mem_cons.mp h with h | h
    · subst h
      rw [List.findIdx_cons]
      simp
    · have huf := List.mem_filter.mp (mem_nubById _ _ h)
      have hne : (u.id == v.id) = false := by simpa using huf.2
      have hneq : u.id ≠ v.id := by simpa using hne
      have hvp : (v.id == u.id) = false := by simpa using Ne.symm hneq
      rw [List.findIdx_cons, hvp]
      simp only [cond_false]
      rw [List.get?_cons_succ]
      have hF := filter_findIdx_get (fun g => g.id == u.id) (fun g => !(g.id == v.id))
        (by
          intro x hx
          have hxv : x.id = v.id := by simpa using hx
          have : x.id ≠ u.id := by rw [hxv]; exact fun e => hneq e.symm
          simpa using this) t
      rw [← hF]
      exact ih u h

theorem nubById_covers : ∀ (l : List User) (v : User), v ∈ l →
    ∃ u, u ∈ nubById l ∧ u.id = v.id := by
  intro l
  induction l using nubById.induct with
  | case1 => intro v h; simp at h
  | case2 w t ih =>
    intro v h
    rw [nubById]
    rcases List.mem_cons.mp h with h | h
    · exact ⟨w, List.mem_cons_self _ _, by rw [h]⟩
    · by_cases hid : v.id = w.id
      · exact ⟨w, List.mem_cons_self _ _, hid.symm⟩
      · have hvf : v ∈ t.filter (fun g => !(g.id == w.id)) :=
          List.mem_filter.mpr ⟨h, by simpa using hid⟩
        obtain ⟨u, hu, hid2⟩ := ih v hvf
        exact ⟨u, List.mem_cons_of_mem _ hu, hid2⟩

theorem firstOccur_eq_nub : ∀ (t : List User) (seen : List Nat),
    firstOccur seen t = nubById (t.filter (fun g => !(seen.contains g.id))) := by
  intro t
  induction t with
  | nil => intro seen; simp [firstOccur, nubById]
  | cons u t' ih =>
    intro seen
    rw [firstOccur]
    by_cases hs : seen.contains u.id = true
    · rw [if_pos hs, List.filter_cons_of_neg (by simpa using hs), ih]
    · have hsf : seen.contains u.id = false := by simpa using hs
      rw [if_neg hs, List.filter_cons_of_pos (by simpa using hsf), nubById, ih (u.id :: seen)]
      congr 1
      rw [List.filter_filter]
      congr 1
      apply List.filter_congr
      intro g _
      rw [List.contains_cons, Bool.not_or]

theorem filterIdx_eq_firstOccur (l : List User) :
    ∀ (t pre : List User) (seen : List Nat),
      l = pre ++ t →
      (∀ a : Nat, seen.contains a = true ↔ ∃ x ∈ pre, x.id = a) →
      filterIdxFrom (fun u i => l.findIdx (fun g => g.id == u.id) == i) pre.length t
        = firstOccur seen t := by
  intro t
  induction t with
  | nil => intro pre seen _ _; rfl
  | cons u t' ih =>
    intro pre seen hl hseen
    rw [filterIdxFrom, firstOccur]
    have hfind : l.findIdx (fun g => g.id == u.id) =
        if List.findIdx (fun g => g.id == u.id) pre < pre.length
        then List.findIdx (fun g => g.id == u.id) pre else pre.length := by
      rw [hl, List.findIdx_append]
      by_cases hlt : List.findIdx (fun g => g.id == u.id) pre < pre.length
      · rw [if_pos hlt, if_pos hlt]
      · rw [if_neg hlt, if_neg hlt, List.findIdx_cons]
        simp
    by_cases hc : seen.contains u.id = true
    · have hex : ∃ x ∈ pre, x.id = u.id := (hseen u.id).mp hc
      have hlt : List.findIdx (fun g => g.id == u.id) pre < pre.length := by
        apply List.findIdx_lt_length.mpr
        obtain ⟨x, hx, hxid⟩ := hex
        exact ⟨x, hx, by simpa using hxid⟩
      have hcb : (l.findIdx (fun g => g.id == u.id) == pre.length) = false := by
        rw [hfind, if_pos hlt]
        exact beq_eq_false_iff_ne.mpr (by omega)
      rw [hcb, if_pos hc]
      simp only [Bool.false_eq_true, if_false]
      have hseen2 : ∀ a : Nat, seen.contains a = true ↔ ∃ x ∈ pre ++ [u], x.id = a := by
        intro a
        constructor
        · intro ha
          obtain ⟨x, hx, he⟩ := (hseen a).mp ha
          exact ⟨x, List.mem_append_left _ hx, he⟩
        · rintro ⟨x, hx, he⟩
          rcases List.mem_append.mp hx with hx | hx
          · exact (hseen a).mpr ⟨x, hx, he⟩
          · have hxu : x = u := by simpa using hx
            subst hxu
            rw [← he]
            exact hc
      have := ih (pre ++ [u]) seen (by rw [hl, List.append_assoc]; rfl) hseen2
      simpa using this
    · have hnex : ¬ ∃ x ∈ pre, x.id = u.id := fun hex => hc ((hseen u.id).mpr hex)
      have hnlt : ¬ List.findIdx (fun g => g.id == u.id) pre < pre.length := by
        intro hlt
        obtain ⟨x, hx, hxp⟩ := List.findIdx_lt_length.mp hlt
        exact hnex ⟨x, hx, by simpa using hxp⟩
      have hcb : (l.findIdx (fun g => g.id == u.id) == pre.length) = true := by
        rw [hfind, if_neg hnlt]
        exact beq_self_eq_true _
      rw [hcb, if_neg hc]
      simp only [if_true]
      congr 1
      have hseen2 : ∀ a : Nat, (u.id :: seen).contains a = true ↔ ∃ x ∈ pre ++ [u], x.id = a := by
        intro a
        rw [List.contains_cons]
        constructor
        · intro ha
          rcases Bool.or_eq_true_iff.mp ha with ha | ha
          · have : a = u.id := by simpa using ha
            exact ⟨u, List.mem_append_right _ (List.mem_singleton_self _), this.symm⟩
          · obtain ⟨x, hx, he⟩ := (hseen a).mp ha
            exact ⟨x, List.mem_append_left _ hx, he⟩
        · rintro ⟨x, hx, he⟩
          rcases List.mem_append.mp hx with hx | hx
          · exact Bool.or_eq_true_iff.mpr (Or.inr ((hseen a).mpr ⟨x, hx, he⟩))
          · have hxu : x = u := by simpa using hx
            subst hxu
            exact Bool.or_eq_true_iff.mpr (Or.inl (by simp [he]))
      have := ih (pre ++ [u]) (u.id :: seen) (by rw [hl, List.append_assoc]; rfl) hseen2
      simpa using this

theorem dedupById_eq_nub (l : List User) : dedupById l = nubById l := by
  have h := filterIdx_eq_firstOccur l l [] []
    rfl
    (by
      intro a
      constructor
      · intro h
        simp at h
      · rintro ⟨x, hx, _⟩
        simp at hx)
  rw [dedupById]
  have h0 : ([] : List User).length = 0 := rfl
  rw [h0] at h
  rw [h, firstOccur_eq_nub]
  congr 1
  apply List.filter_eq_self.mpr
  intro a _
  rfl

/-- C5: deduplication of the guides embedded in a trip list keeps, for each
id, exactly the element at the earliest position, covers every embedded
guide id, yields pairwise distinct ids, leaves an already deduplicated list
unchanged, and is idempotent. -/
theorem dedup_guides_first_occurrence (trips : List Trip) :
    (∀ u ∈ dedupById (guidesOf trips),
      (guidesOf trips).get? ((guidesOf trips).findIdx (fun g => g.id == u.id)) = some u) ∧
    (∀ v ∈ guidesOf trips, ∃ u, u ∈ dedupById (guidesOf trips) ∧ u.id = v.id) ∧
    (dedupById (guidesOf trips)).Pairwise (fun a b => a.id ≠ b.id) ∧
    ((guidesOf trips).Pairwise (fun a b => a.id ≠ b.id) →
      dedupById (guidesOf trips) = guidesOf trips) ∧
    dedupById (dedupById (guidesOf trips)) = dedupById (guidesOf trips) := by
  refine ⟨?_, ?_, ?_, ?_, ?_⟩
  · intro u hu
    rw [dedupById_eq_nub] at hu
    exact nubById_first_get _ u hu
  · intro v hv
    obtain ⟨u, hu, he⟩ := nubById_covers _ v hv
    rw [← dedupById_eq_nub] at hu
    exact ⟨u, hu, he⟩
  · rw [dedupById_eq_nub]
    exact nubById_pairwise _
  · intro hp
    rw [dedupById_eq_nub]
    exact nubById_of_pairwise _ hp
  · rw [dedupById_eq_nub (dedupById (guidesOf trips)), dedupById_eq_nub (guidesOf trips)]
    exact nubById_of_pairwise _ (nubById_pairwise _)

theorem dedup_guides_first_occurrence_witness :
    (guidesOf dupGuideTrips).get?
        ((guidesOf dupGuideTrips).findIdx (fun g => g.id == gDupFirst.id)) = some gDupFirst :=
  (dedup_guides_first_occurrence dupGuideTrips).1 gDupFirst (by decide)

theorem userCmp_neg (a b : User) : userCmp b a = -userCmp a b := by
  simp only [userCmp]
  split_ifs <;> omega

theorem userCmp_le_iff (a b : User) :
    userCmp a b ≤ 0 ↔
      (rewardOf b < rewardOf a ∨ (rewardOf a = rewardOf b ∧ onbNum b ≤ onbNum a)) := by
  simp only [userCmp, rewardOf, onbNum]
  split_ifs <;> omega

/-- C4 counterexample: the trips page users list (the trips-users derived
list) has no sort stage: guides with rewards 5 and 10 arriving in that
order are returned in arrival order, violating the claimed descending
reward order. -/
theorem trips_users_unsorted_counterexample :
    filteredUsersTrips [mkGuideTrip gLow, mkGuideTrip gHigh] "" "all" = [gLow, gHigh] ∧
    ¬ List.Pairwise (fun a b =>
        rewardOf b < rewardOf a ∨ (rewardOf a = rewardOf b ∧ onbNum b ≤ onbNum a))
      (filteredUsersTrips [mkGuideTrip gLow, mkGuideTrip gHigh] "" "all") := by
  constructor
  · decide
  · decide

/-- C4 amended: the sorted users list is the dashboard one (app/page.tsx),
not the trips-users list: it is descending by reward with nulls as 0, ties
broken onboarded-first, stable for fully equal keys, a permutation of the
filtered input, and the spec example sorts as stated. -/
theorem dashboard_sort_amended (users : List User) (term fty : String) :
    List.Pairwise (fun a b =>
        rewardOf b < rewardOf a ∨ (rewardOf a = rewardOf b ∧ onbNum b ≤ onbNum a))
      (filteredUsersDash users term fty) ∧
    (filteredUsersDash users term fty).Perm (dashFilter users term fty) ∧
    (∀ a b, rewardOf a = rewardOf b → a.is_onboarded = b.is_onboarded →
      List.Sublist [a, b] (dashFilter users term fty) →
      List.Sublist [a, b] (filteredUsersDash users term fty)) ∧
    filteredUsersDash [exR5F, exR5T, exR10F] "" "all" = [exR10F, exR5T, exR5F] := by
  have htr : ∀ a b c : User, decide (userCmp a b ≤ 0) = true →
      decide (userCmp b c ≤ 0) = true → decide (userCmp a c ≤ 0) = true := by
    intro a b c hab hbc
    rw [decide_eq_true_eq] at hab hbc ⊢
    rw [userCmp_le_iff] at hab hbc ⊢
    omega
  have hto : ∀ a b : User, (decide (userCmp a b ≤ 0) || decide (userCmp b a ≤ 0)) = true := by
    intro a b
    rw [Bool.or_eq_true_iff, decide_eq_true_eq, decide_eq_true_eq]
    have := userCmp_neg a b
    omega
  refine ⟨?_, ?_, ?_, ?_⟩
  · have hs := List.sorted_mergeSort htr hto (dashFilter users term fty)
    simp only [filteredUsersDash, jsSort]
    refine List.Pairwise.imp ?_ hs
    intro a b hab
    rw [decide_eq_true_eq] at hab
    exact (userCmp_le_iff a b).mp hab
  · simp only [filteredUsersDash, jsSort]
    exact List.mergeSort_perm _ _
  · intro a b hr ho hsub
    have hpair : List.Pairwise (fun x y => decide (userCmp x y ≤ 0) = true) [a, b] := by
      refine List.pairwise_cons.mpr ⟨?_, by simp⟩
      intro y hy
      have hyb : y = b := by simpa using hy
      subst hyb
      rw [decide_eq_true_eq, userCmp_le_iff]
      right
      constructor
      · exact hr
      · rw [onbNum, onbNum, ho]
    simp only [filteredUsersDash, jsSort]
    exact List.sublist_mergeSort htr hto hpair hsub
  · simp +decide [filteredUsersDash, jsSort, dashFilter, List.mergeSort]

theorem dashboard_sort_amended_witness :
    List.Sublist [stA, stB] (filteredUsersDash [stA, stB] "" "all") :=
  (dashboard_sort_amended [stA, stB] "" "all").2.2.1 stA stB (by decide) (by decide) (by decide)

theorem includesChars_nil (hay : List Char) : includesChars [] hay = true := by
  cases hay <;> simp [includesChars, startsWithChars]

theorem jsIncludes_empty (s : String) : jsIncludes s "" = true :=
  includesChars_nil s.data

/-- C3 counterexample: the claimed fully case-insensitive match fails on the
phone field: the term abc matches the phone ABC case-insensitively, so the
claim keeps the record, but the code filter matches phones case-sensitively
and drops it. -/
theorem search_phone_case_counterexample :
    spec_ciKeptDash uPhone "abc" = true ∧
    dashMatchesSearch uPhone "abc" = false ∧
    dashFilter [uPhone] "abc" "all" = [] :=
  ⟨by decide, by decide, by decide⟩

/-- C3 amended: a record is kept exactly when the type filter passes and at
least one searched field matches, where name, surname, plate number, trip
code and company name are matched case-insensitively but phone is matched
case-sensitively; the empty term matches every record with a name present;
a term matched by no record yields the empty result. -/
theorem search_filter_amended (users : List User) (trips : List Trip) (term fty : String) :
    (∀ u, u ∈ dashFilter users term fty ↔ u ∈ users ∧
      (optTest u.name (fun s => jsIncludes (jsToLower s) (jsToLower term)) = true ∨
       optTest u.surname (fun s => jsIncludes (jsToLower s) (jsToLower term)) = true ∨
       optTest u.phone (fun s => jsIncludes s term) = true ∨
       optTest u.plate_number (fun s => jsIncludes (jsToLower s) (jsToLower term)) = true) ∧
      dashMatchesType u fty = true) ∧
    (∀ t, t ∈ filteredTrips trips term fty ↔ t ∈ trips ∧
      (optTest (t.guide.bind User.name) (fun s => jsIncludes (jsToLower s) (jsToLower term)) = true ∨
       optTest (t.guide.bind User.surname) (fun s => jsIncludes (jsToLower s) (jsToLower term)) = true ∨
       optTest (t.driver.bind User.name) (fun s => jsIncludes (jsToLower s) (jsToLower term)) = true ∨
       optTest (t.driver.bind User.surname) (fun s => jsIncludes (jsToLower s) (jsToLower term)) = true ∨
       optTest (t.guide.bind User.phone) (fun s => jsIncludes s term) = true ∨
       optTest (t.driver.bind User.phone) (fun s => jsIncludes s term) = true ∨
       optTest t.code (fun s => jsIncludes (jsToLower s) (jsToLower term)) = true ∨
       optTest (t.company.bind Company.name) (fun s => jsIncludes (jsToLower s) (jsToLower term)) = true) ∧
      tripMatchesType t fty = true) ∧
    (term = "" → ∀ u ∈ users, u.name ≠ none → dashMatchesSearch u term = true) ∧
    ((∀ u ∈ users, dashMatchesSearch u term = false) → dashFilter users term fty = []) ∧
    ((∀ t ∈ trips, tripMatchesSearch t term = false) → filteredTrips trips term fty = []) := by
  refine ⟨?_, ?_, ?_, ?_, ?_⟩
  · intro u
    rw [dashFilter, List.mem_filter, Bool.and_eq_true]
    simp only [dashMatchesSearch, Bool.or_eq_true]
    tauto
  · intro t
    rw [filteredTrips, List.mem_filter, Bool.and_eq_true]
    simp only [tripMatchesSearch, Bool.or_eq_true]
    tauto
  · intro he u _ hname
    subst he
    rw [dashMatchesSearch]
    obtain ⟨s, hs⟩ := Option.ne_none_iff_exists.mp hname
    rw [← hs]
    simp only [optTest]
    rw [show jsToLower "" = "" from rfl, jsIncludes_empty]
    simp
  · intro hall
    rw [dashFilter]
    apply List.filter_eq_nil_iff.mpr
    intro u hu
    simp [hall u hu]
  · intro hall
    rw [filteredTrips]
    apply List.filter_eq_nil_iff.mpr
    intro t ht
    simp [hall t ht]

theorem search_filter_amended_witness :
    dashFilter [uPhone] "zzz" "all" = [] ∧
    filteredTrips [mkGuideTrip uPhone] "zzz" "all" = [] :=
  ⟨(search_filter_amended [uPhone] [] "zzz" "all").2.2.2.1 (by decide),
   (search_filter_amended [] [mkGuideTrip uPhone] "zzz" "all").2.2.2.2 (by decide)⟩
